import Mathlib

/-!
Shallow embedding of `internal/controllers/requirements/git/git.go` from the
horusec repository.

Go strings are modelled as `List Char` (the banner format under scrutiny is
ASCII, where Go byte indexing and character indexing coincide).  Go string
slicing `s[a:b]` panics when the bounds are invalid, so it is modelled as an
`Option`-valued operation, and every function that can reach such a slice
returns an `Outcome`, whose `panics` constructor records a Go runtime panic.
The external command execution in `execGitVersion` is modelled by an explicit
`ExecResult` argument: either the command failed with some opaque error
message, or it produced a captured combined output.  Logging calls are side
effects with no influence on control flow and are dropped.
-/

/-- Go strings are modelled as lists of characters. -/
abbrev Str := List Char

/-- The marker substring `"git version "` used by the Go code. -/
def marker : Str := "git version ".data

/-- Model of `strings.ToLower` (ASCII range; the banner format is ASCII). -/
def goToLower (s : Str) : Str := s.map Char.toLower

/-- Model of `strings.Contains s marker`: true iff `marker` occurs in `s`. -/
def containsMarker : Str → Bool
  | [] => false
  | c :: rest => marker.isPrefixOf (c :: rest) || containsMarker rest

/-- Model of Go string slicing `s[a:b]`: `none` models the runtime panic when
`a ≤ b ≤ len s` fails. -/
def goSlice (s : Str) (a b : Nat) : Option Str :=
  if a ≤ b ∧ b ≤ s.length then some ((s.drop a).take (b - a)) else none

/-- Extends the first chunk of a split result with one leading character. -/
def consHead (c : Char) : List Str → List Str
  | [] => [[c]]
  | head :: tail => (c :: head) :: tail

/-- Fuel-indexed model of `strings.Split s marker`, scanning left to right:
whenever the marker is a prefix of the remaining input the current chunk ends
there and scanning resumes after the marker (Go splits on the leftmost,
non-overlapping occurrences).  Each step consumes at least one character, so
fuel `s.length` always suffices; on the empty string the result is `[""]`,
exactly as in Go (the marker is nonempty, so it never occurs there). -/
def goSplitAux : Nat → Str → List Str
  | 0, s => [s]
  | _ + 1, [] => [[]]
  | fuel + 1, c :: rest =>
    if marker.isPrefixOf (c :: rest) then
      [] :: goSplitAux fuel ((c :: rest).drop marker.length)
    else
      consHead c (goSplitAux fuel rest)

/-- Model of `strings.Split s "git version "`. -/
def goSplit (s : Str) : List Str := goSplitAux s.length s

/-- Numeric value of a decimal digit character, `none` otherwise. -/
def digitToNat (c : Char) : Option Nat :=
  if '0' ≤ c ∧ c ≤ '9' then some (c.toNat - '0'.toNat) else none

/-- Accumulating decimal parser used by `atoi`. -/
def digitsToNatAux : Nat → Str → Option Nat
  | acc, [] => some acc
  | acc, c :: rest =>
    match digitToNat c with
    | none => none
    | some d => digitsToNatAux (acc * 10 + d) rest

/-- Model of Go `strconv.Atoi`: optional sign followed by at least one decimal
digit; any other shape is a syntax error.  (Go additionally fails on 64-bit
overflow, which cannot occur at the call sites here: both slices passed to
`Atoi` have length at most 2.) -/
def atoi (s : Str) : Option Int :=
  match s with
  | [] => none
  | '+' :: rest =>
    if rest.isEmpty then none else (digitsToNatAux 0 rest).map (fun n => (n : Int))
  | '-' :: rest =>
    if rest.isEmpty then none else (digitsToNatAux 0 rest).map (fun n => -(n : Int))
  | l => (digitsToNatAux 0 l).map (fun n => (n : Int))

/-- Constant `MinVersionGitAccept = 2` from the Go source. -/
def MinVersionGitAccept : Int := 2

/-- Constant `MinSubVersionGitAccept = 0o1` (octal literal, value 1). -/
def MinSubVersionGitAccept : Int := 1

/-- The error values this component can return: the two package-level errors
of the Go source plus a propagated command-execution error (the Go code
returns the error from `exec.Command(...).CombinedOutput()` verbatim, which
is a distinct value from both package-level errors). -/
inductive GitError where
  | notInstalled
  | lowerVersion
  | execFailure (msg : String)
deriving DecidableEq, Repr

/-- Package-level error `ErrGitNotInstalled`. -/
def ErrGitNotInstalled : GitError := .notInstalled

/-- Package-level error `ErrGitLowerVersion`. -/
def ErrGitLowerVersion : GitError := .lowerVersion

/-- Outcome of running the external command `git --version`: either the
execution failed with some error, or a combined output string was captured. -/
inductive ExecResult where
  | failure (err : String)
  | output (s : Str)
deriving DecidableEq, Repr

/-- Result of a Go function call that may panic at runtime. -/
inductive Outcome (α : Type) where
  | panics
  | value (a : α)
deriving DecidableEq, Repr

/-- The receiver type `RequirementGit`, a struct with no fields. -/
structure RequirementGit where
deriving DecidableEq, Repr

/-- Model of `NewRequirementGit`. -/
def NewRequirementGit : RequirementGit := {}

/-- Model of `execGitVersion`: on failure propagate the execution error (and
log), otherwise lowercase the captured combined output. -/
def RequirementGit.execGitVersion (_r : RequirementGit) (world : ExecResult) :
    Except GitError Str :=
  match world with
  | .failure e => .error (.execFailure e)
  | .output s => .ok (goToLower s)

/-- Model of `checkIfContainsGitVersion`. -/
def RequirementGit.checkIfContainsGitVersion (_r : RequirementGit) (response : Str) : Bool :=
  containsMarker (goToLower response)

/-- Model of `getVersionAndSubVersion`: parse `fullVersion[0:1]` as the major
version and `fullVersion[2:4]` as the minor version; a failed `Atoi` returns
`ErrGitNotInstalled`, an out-of-bounds slice panics. -/
def RequirementGit.getVersionAndSubVersion (_r : RequirementGit) (fullVersion : Str) :
    Outcome (Except GitError (Int × Int)) :=
  match goSlice fullVersion 0 1 with
  | none => .panics
  | some s1 =>
    match atoi s1 with
    | none => .value (.error ErrGitNotInstalled)
    | some version =>
      match goSlice fullVersion 2 4 with
      | none => .panics
      | some s2 =>
        match atoi s2 with
        | none => .value (.error ErrGitNotInstalled)
        | some subversion => .value (.ok (version, subversion))

/-- Model of `extractGitVersionFromString`: split the lowercased response on
the marker; if the guard `len < 1 || (len > 1 && len(split[1]) < 3)` fires,
return `ErrGitNotInstalled`; otherwise index `split[1]` (a Go index panic when
the split produced a single chunk) and parse it. -/
def RequirementGit.extractGitVersionFromString (r : RequirementGit) (response : Str) :
    Outcome (Except GitError (Int × Int)) :=
  let responseSpited := goSplit (goToLower response)
  if responseSpited.length < 1 ∨
      (1 < responseSpited.length ∧ ((responseSpited.get? 1).getD []).length < 3) then
    .value (.error ErrGitNotInstalled)
  else
    match responseSpited.get? 1 with
    | none => .panics
    | some fullVersion => r.getVersionAndSubVersion fullVersion

/-- Model of `validateIfGitIsRunningInMinVersion`: extract the two integers
and compare them against the minimum version constants. -/
def RequirementGit.validateIfGitIsRunningInMinVersion (r : RequirementGit) (response : Str) :
    Outcome (Except GitError Unit) :=
  match r.extractGitVersionFromString response with
  | .panics => .panics
  | .value (.error e) => .value (.error e)
  | .value (.ok (version, subversion)) =>
    if version < MinVersionGitAccept then
      .value (.error ErrGitLowerVersion)
    else if version = MinVersionGitAccept ∧ subversion < MinSubVersionGitAccept then
      .value (.error ErrGitLowerVersion)
    else
      .value (.ok ())

/-- Model of `validateIfGitIsSupported` (the extra logging on failure is a
side effect with no influence on the returned value). -/
def RequirementGit.validateIfGitIsSupported (r : RequirementGit) (version : Str) :
    Outcome (Except GitError Unit) :=
  r.validateIfGitIsRunningInMinVersion version

/-- Model of `validateIfGitIsInstalled`. -/
def RequirementGit.validateIfGitIsInstalled (r : RequirementGit) (world : ExecResult) :
    Except GitError Str :=
  match r.execGitVersion world with
  | .error e => .error e
  | .ok response =>
    if r.checkIfContainsGitVersion response then .ok response
    else .error ErrGitNotInstalled

/-- Model of the exported method `ValidateGit`. -/
def RequirementGit.ValidateGit (r : RequirementGit) (world : ExecResult) :
    Outcome (Except GitError Unit) :=
  match r.validateIfGitIsInstalled world with
  | .error e => .value (.error e)
  | .ok response => r.validateIfGitIsSupported response

/-! ### Helper lemmas -/

theorem charToLower_idem (c : Char) : c.toLower.toLower = c.toLower := by
  by_cases h : c.toNat ≥ 65 ∧ c.toNat ≤ 90
  · have hvalid : Nat.isValidChar (c.toNat + 32) := Or.inl (by omega)
    have hv : (Char.ofNat (c.toNat + 32)).toNat = c.toNat + 32 := by
      simp only [Char.ofNat]
      rw [dif_pos hvalid]
      rfl
    have h1 : c.toLower = Char.ofNat (c.toNat + 32) := by
      simp only [Char.toLower]
      rw [if_pos h]
    rw [h1]
    simp only [Char.toLower]
    rw [if_neg (by rw [hv]; omega)]
  · simp only [Char.toLower]
    rw [if_neg h, if_neg h]

theorem goToLower_idem (s : Str) : goToLower (goToLower s) = goToLower s := by
  induction s with
  | nil => rfl
  | cons c rest ih =>
    simp only [goToLower, List.map_cons] at ih ⊢
    rw [charToLower_idem, ih]

theorem consHead_length_pos (c : Char) (l : List Str) :
    1 ≤ (consHead c l).length := by
  cases l <;> simp [consHead]

theorem goSplitAux_length_pos (fuel : Nat) (s : Str) :
    1 ≤ (goSplitAux fuel s).length := by
  match fuel, s with
  | 0, s => simp [goSplitAux]
  | n + 1, [] => simp [goSplitAux]
  | n + 1, c :: rest =>
    simp only [goSplitAux]
    split
    · simp
    · exact consHead_length_pos c _

theorem goSplitAux_two_le_iff (fuel : Nat) :
    ∀ s : Str, s.length ≤ fuel →
      (2 ≤ (goSplitAux fuel s).length ↔ containsMarker s = true) := by
  induction fuel with
  | zero =>
    intro s hs
    have hnil : s = [] := List.length_eq_zero.mp (Nat.le_zero.mp hs)
    subst hnil
    simp [goSplitAux, containsMarker]
  | succ n ih =>
    intro s hs
    match s with
    | [] => simp [goSplitAux, containsMarker]
    | c :: rest =>
      simp only [goSplitAux]
      by_cases hp : marker.isPrefixOf (c :: rest) = true
      · rw [if_pos hp]
        apply iff_of_true
        · have := goSplitAux_length_pos n ((c :: rest).drop marker.length)
          simp only [List.length_cons]
          omega
        · simp [containsMarker, hp]
      · rw [if_neg hp]
        have hrest : rest.length ≤ n := by
          simp only [List.length_cons] at hs
          omega
        have ihr := ih rest hrest
        cases h : goSplitAux n rest with
        | nil =>
          have := goSplitAux_length_pos n rest
          rw [h] at this
          simp at this
        | cons head tail =>
          rw [h] at ihr
          simp only [List.length_cons] at ihr
          simp only [containsMarker, hp, Bool.false_or]
          rw [← ihr]
          simp [consHead]

theorem goSplit_two_le_iff (s : Str) :
    2 ≤ (goSplit s).length ↔ containsMarker s = true :=
  goSplitAux_two_le_iff s.length s (Nat.le_refl _)

theorem goSplit_length_pos (s : Str) : 1 ≤ (goSplit s).length :=
  goSplitAux_length_pos s.length s

theorem contains_of_get?_some {s t : Str} (h : (goSplit s).get? 1 = some t) :
    containsMarker s = true := by
  rcases List.get?_eq_some.mp h with ⟨hl, _⟩
  exact (goSplit_two_le_iff s).mp (by omega)

/-- Unfolding lemma for `extractGitVersionFromString`, expressed through the
second chunk of the split: when the marker does not occur the code would
panic on the out-of-range index `responseSpited[1]`; otherwise the guard
reduces to the length-3 check on that chunk. -/
theorem extractGitVersionFromString_eq (r : RequirementGit) (response : Str) :
    r.extractGitVersionFromString response =
      match (goSplit (goToLower response)).get? 1 with
      | none => Outcome.panics
      | some t =>
        if t.length < 3 then .value (.error ErrGitNotInstalled)
        else r.getVersionAndSubVersion t := by
  simp only [RequirementGit.extractGitVersionFromString]
  have hpos : 1 ≤ (goSplit (goToLower response)).length := goSplit_length_pos _
  cases h : (goSplit (goToLower response)).get? 1 with
  | none =>
    have hlen : (goSplit (goToLower response)).length ≤ 1 := List.get?_eq_none.mp h
    rw [if_neg]
    intro hor
    rcases hor with h1 | ⟨h2, _⟩ <;> omega
  | some t =>
    have hlt : 1 < (goSplit (goToLower response)).length := by
      rcases List.get?_eq_some.mp h with ⟨hl, _⟩
      omega
    simp only [Option.getD_some]
    by_cases h3 : t.length < 3
    · rw [if_pos (Or.inr ⟨hlt, h3⟩), if_pos h3]
    · rw [if_neg, if_neg h3]
      intro hor
      rcases hor with h1 | ⟨_, h2⟩
      · omega
      · exact h3 h2

/-- Unfolding lemma for `ValidateGit` on a captured output: the exec step
lowercases the output, the marker check lowercases it again. -/
theorem ValidateGit_output_eq (r : RequirementGit) (s : Str) :
    r.ValidateGit (.output s) =
      if containsMarker (goToLower (goToLower s)) then
        r.validateIfGitIsRunningInMinVersion (goToLower s)
      else .value (.error ErrGitNotInstalled) := by
  by_cases h : containsMarker (goToLower (goToLower s)) = true
  · simp [RequirementGit.ValidateGit, RequirementGit.validateIfGitIsInstalled,
      RequirementGit.execGitVersion, RequirementGit.checkIfContainsGitVersion,
      RequirementGit.validateIfGitIsSupported, h]
  · simp [RequirementGit.ValidateGit, RequirementGit.validateIfGitIsInstalled,
      RequirementGit.execGitVersion, RequirementGit.checkIfContainsGitVersion,
      RequirementGit.validateIfGitIsSupported, h]

theorem extract_with_chunk (r : RequirementGit) (response t : Str)
    (ht : (goSplit (goToLower response)).get? 1 = some t) :
    r.extractGitVersionFromString response =
      if t.length < 3 then .value (.error ErrGitNotInstalled)
      else r.getVersionAndSubVersion t := by
  rw [extractGitVersionFromString_eq, ht]

theorem validateMin_with_chunk (r : RequirementGit) (response t : Str)
    (ht : (goSplit (goToLower response)).get? 1 = some t) (h3 : ¬t.length < 3) :
    r.validateIfGitIsRunningInMinVersion response =
      match r.getVersionAndSubVersion t with
      | .panics => .panics
      | .value (.error e) => .value (.error e)
      | .value (.ok (version, subversion)) =>
        if version < MinVersionGitAccept then .value (.error ErrGitLowerVersion)
        else if version = MinVersionGitAccept ∧ subversion < MinSubVersionGitAccept then
          .value (.error ErrGitLowerVersion)
        else .value (.ok ()) := by
  unfold RequirementGit.validateIfGitIsRunningInMinVersion
  rw [extract_with_chunk r response t ht, if_neg h3]

theorem validateMin_short_chunk (r : RequirementGit) (response t : Str)
    (ht : (goSplit (goToLower response)).get? 1 = some t) (h3 : t.length < 3) :
    r.validateIfGitIsRunningInMinVersion response = .value (.error ErrGitNotInstalled) := by
  unfold RequirementGit.validateIfGitIsRunningInMinVersion
  rw [extract_with_chunk r response t ht, if_pos h3]

theorem goSlice_first (t : Str) (h1 : 1 ≤ t.length) :
    goSlice t 0 1 = some (t.take 1) := by
  unfold goSlice
  rw [if_pos ⟨by omega, h1⟩]
  simp

theorem goSlice_second (t : Str) (h4 : 4 ≤ t.length) :
    goSlice t 2 4 = some ((t.drop 2).take 2) := by
  unfold goSlice
  rw [if_pos ⟨by omega, h4⟩]

/-- Characterization of `getVersionAndSubVersion` on chunks long enough that
neither slice panics. -/
theorem getVersion_eq (r : RequirementGit) (t : Str) (h4 : 4 ≤ t.length) :
    r.getVersionAndSubVersion t =
      match atoi (t.take 1) with
      | none => .value (.error ErrGitNotInstalled)
      | some version =>
        match atoi ((t.drop 2).take 2) with
        | none => .value (.error ErrGitNotInstalled)
        | some subversion => .value (.ok (version, subversion)) := by
  unfold RequirementGit.getVersionAndSubVersion
  rw [goSlice_first t (by omega), goSlice_second t h4]

theorem getVersion_first_fail (r : RequirementGit) (t : Str) (h1 : 1 ≤ t.length)
    (hfail : atoi (t.take 1) = none) :
    r.getVersionAndSubVersion t = .value (.error ErrGitNotInstalled) := by
  unfold RequirementGit.getVersionAndSubVersion
  split
  next heq =>
    rw [goSlice_first t h1] at heq
    cases heq
  next s1 heq =>
    rw [goSlice_first t h1] at heq
    injection heq with heq
    subst heq
    rw [hfail]

/-- Every error value produced by `extractGitVersionFromString` (and hence by
`getVersionAndSubVersion`) is `ErrGitNotInstalled`. -/
theorem extract_error_cases (r : RequirementGit) (response : Str) (e : GitError)
    (h : r.extractGitVersionFromString response = .value (.error e)) :
    e = ErrGitNotInstalled := by
  cases hg : (goSplit (goToLower response)).get? 1 with
  | none =>
    rw [extractGitVersionFromString_eq, hg] at h
    exact Outcome.noConfusion h
  | some t =>
    rw [extract_with_chunk r response t hg] at h
    by_cases h3 : t.length < 3
    · rw [if_pos h3] at h
      simp only [Outcome.value.injEq, Except.error.injEq] at h
      exact h.symm
    · rw [if_neg h3] at h
      unfold RequirementGit.getVersionAndSubVersion at h
      cases h1 : goSlice t 0 1 with
      | none =>
        rw [h1] at h
        cases h
      | some s1 =>
        rw [h1] at h
        simp only at h
        cases h2 : atoi s1 with
        | none =>
          rw [h2] at h
          simp only [Outcome.value.injEq, Except.error.injEq] at h
          exact h.symm
        | some ver =>
          rw [h2] at h
          simp only at h
          cases h4 : goSlice t 2 4 with
          | none =>
            rw [h4] at h
            cases h
          | some s2 =>
            rw [h4] at h
            simp only at h
            cases h5 : atoi s2 with
            | none =>
              rw [h5] at h
              simp only [Outcome.value.injEq, Except.error.injEq] at h
              exact h.symm
            | some sub =>
              rw [h5] at h
              simp at h

deriving instance DecidableEq for Except

/-! ### Claim theorems -/

/-- C1: the claim says `ValidateGit` never panics and that the fixed-position
parsing step is total on every output passing the marker and length checks.
The code violates this: for the captured output `"git version 2.0"` the chunk
after the marker is `"2.0"` (length exactly 3), which passes the marker check
and the `len < 3` guard, yet the slice `fullVersion[2:4]` is out of range and
the Go code panics instead of returning an error value. -/
theorem claim_C1_fixed_position_parse_panics :
    NewRequirementGit.checkIfContainsGitVersion (goToLower "git version 2.0".data) = true
    ∧ (goSplit (goToLower (goToLower "git version 2.0".data))).get? 1 = some "2.0".data
    ∧ ¬("2.0".data.length < 3)
    ∧ NewRequirementGit.ValidateGit (.output "git version 2.0".data) = .panics :=
  ⟨rfl, rfl, by decide, rfl⟩

/-- C3 counterexample: the claim says `Validate` succeeds on the output
`"git version 3.5.0"`; in fact it does not succeed. -/
theorem claim_C3_counterexample :
    NewRequirementGit.ValidateGit (.output "git version 3.5.0".data)
      ≠ .value (.ok ()) := by
  decide

/-- C3 amended: for the captured output `"git version 3.5.0"` the
fixed-position minor slice (offsets 2 to 4 of the chunk `"3.5.0"`) is `"5."`,
which fails to parse as an integer, so `ValidateGit` yields
`ErrGitNotInstalled`; the major version 3 is never compared. -/
theorem claim_C3_single_digit_minor_not_installed :
    goSlice "3.5.0".data 2 4 = some "5.".data
    ∧ atoi "5.".data = none
    ∧ NewRequirementGit.ValidateGit (.output "git version 3.5.0".data)
      = .value (.error ErrGitNotInstalled) :=
  ⟨rfl, rfl, rfl⟩

/-- C6: every captured output that does not contain the marker substring
`"git version "` after lowercase normalization makes `ValidateGit` yield
`ErrGitNotInstalled`. -/
theorem claim_C6_no_marker_not_installed (s : Str)
    (h : containsMarker (goToLower s) = false) :
    NewRequirementGit.ValidateGit (.output s) = .value (.error ErrGitNotInstalled) := by
  rw [ValidateGit_output_eq, goToLower_idem, if_neg]
  simp [h]

theorem claim_C6_witness :
    NewRequirementGit.ValidateGit (.output "no banner here".data)
      = .value (.error ErrGitNotInstalled) :=
  claim_C6_no_marker_not_installed "no banner here".data (by decide)

/-- C7: for the captured output `"git version 2.01.0 ..."` the parsing step
yields major 2 and minor 1, and `ValidateGit` succeeds, since (2,1) meets the
(2,1) minimum. -/
theorem claim_C7_banner_parses_and_succeeds :
    NewRequirementGit.extractGitVersionFromString (goToLower "git version 2.01.0 ...".data)
      = .value (.ok (2, 1))
    ∧ NewRequirementGit.ValidateGit (.output "git version 2.01.0 ...".data)
      = .value (.ok ()) :=
  ⟨rfl, rfl⟩

/-- C8: the validation result is invariant under the letter case of the
captured output: outputs with equal lowercase forms validate identically. -/
theorem claim_C8_case_invariance (s s' : Str) (h : goToLower s = goToLower s') :
    NewRequirementGit.ValidateGit (.output s)
      = NewRequirementGit.ValidateGit (.output s') := by
  simp only [RequirementGit.ValidateGit, RequirementGit.validateIfGitIsInstalled,
    RequirementGit.execGitVersion, RequirementGit.checkIfContainsGitVersion,
    RequirementGit.validateIfGitIsSupported]
  rw [h]

theorem claim_C8_witness :
    NewRequirementGit.ValidateGit (.output "GIT Version 2.01.0".data)
      = NewRequirementGit.ValidateGit (.output "git version 2.01.0".data) :=
  claim_C8_case_invariance "GIT Version 2.01.0".data "git version 2.01.0".data rfl

/-- C9: validation is deterministic (a pure function of the exec result) and
the receiver type `RequirementGit` is stateless: it has no fields, so any two
receivers are equal and validate identically. -/
theorem claim_C9_deterministic_stateless :
    (∀ (a : RequirementGit) (x : ExecResult), a.ValidateGit x = a.ValidateGit x)
    ∧ (∀ (a b : RequirementGit) (x : ExecResult), a.ValidateGit x = b.ValidateGit x)
    ∧ (∀ a b : RequirementGit, a = b) :=
  ⟨fun _ _ => rfl, fun a b x => by cases a; cases b; rfl, fun a b => by cases a; cases b; rfl⟩

/-- C2 counterexample: on a command-execution failure the code returns the
execution error itself (the error from `exec.Command(...).CombinedOutput()`),
not `ErrGitNotInstalled`, so `NotInstalled` and `VersionTooLow` are not the
only two error values `ValidateGit` can return. -/
theorem claim_C2_counterexample :
    NewRequirementGit.ValidateGit (.failure "exit status 1")
      = .value (.error (.execFailure "exit status 1"))
    ∧ GitError.execFailure "exit status 1" ≠ ErrGitNotInstalled :=
  ⟨rfl, by decide⟩

/-- C2 amended: on every command-execution failure `ValidateGit` immediately
returns the propagated execution error without inspecting or parsing any
output, and the only error values `ValidateGit` can return are
`ErrGitNotInstalled`, `ErrGitLowerVersion`, and a propagated execution
error (the latter exactly on execution failures). -/
theorem claim_C2_exec_error_propagates :
    (∀ e : String,
        NewRequirementGit.ValidateGit (.failure e) = .value (.error (.execFailure e)))
    ∧ (∀ (x : ExecResult) (err : GitError),
        NewRequirementGit.ValidateGit x = .value (.error err) →
          err = ErrGitNotInstalled ∨ err = ErrGitLowerVersion
            ∨ ∃ e, x = .failure e ∧ err = .execFailure e) := by
  constructor
  · intro e
    rfl
  · intro x err h
    cases x with
    | failure e =>
      refine Or.inr (Or.inr ⟨e, rfl, ?_⟩)
      have h' : Outcome.value (α := Except GitError Unit) (.error (.execFailure e))
          = .value (.error err) := h
      simp only [Outcome.value.injEq, Except.error.injEq] at h'
      exact h'.symm
    | output s =>
      rw [ValidateGit_output_eq] at h
      by_cases hc : containsMarker (goToLower (goToLower s)) = true
      · rw [if_pos hc] at h
        unfold RequirementGit.validateIfGitIsRunningInMinVersion at h
        cases hx : NewRequirementGit.extractGitVersionFromString (goToLower s) with
        | panics =>
          rw [hx] at h
          exact Outcome.noConfusion h
        | value v =>
          rw [hx] at h
          rcases v with e2 | ⟨vv, sv⟩
          · have he2 : e2 = ErrGitNotInstalled := extract_error_cases _ _ _ hx
            have h' : Outcome.value (α := Except GitError Unit) (.error e2)
                = .value (.error err) := h
            simp only [Outcome.value.injEq, Except.error.injEq] at h'
            exact Or.inl (by rw [← h']; exact he2)
          · have h' : (if vv < MinVersionGitAccept then
                  Outcome.value (α := Except GitError Unit) (.error ErrGitLowerVersion)
                else if vv = MinVersionGitAccept ∧ sv < MinSubVersionGitAccept then
                  Outcome.value (.error ErrGitLowerVersion)
                else Outcome.value (.ok ())) = .value (.error err) := h
            by_cases h1 : vv < MinVersionGitAccept
            · rw [if_pos h1] at h'
              simp only [Outcome.value.injEq, Except.error.injEq] at h'
              exact Or.inr (Or.inl h'.symm)
            · rw [if_neg h1] at h'
              by_cases h2 : vv = MinVersionGitAccept ∧ sv < MinSubVersionGitAccept
              · rw [if_pos h2] at h'
                simp only [Outcome.value.injEq, Except.error.injEq] at h'
                exact Or.inr (Or.inl h'.symm)
              · rw [if_neg h2] at h'
                simp at h'
      · rw [if_neg hc] at h
        have h' : Outcome.value (α := Except GitError Unit) (.error ErrGitNotInstalled)
            = .value (.error err) := h
        simp only [Outcome.value.injEq, Except.error.injEq] at h'
        exact Or.inl h'.symm

theorem claim_C2_witness :
    GitError.notInstalled = ErrGitNotInstalled ∨ GitError.notInstalled = ErrGitLowerVersion
      ∨ ∃ e, ExecResult.output [] = ExecResult.failure e
          ∧ GitError.notInstalled = GitError.execFailure e :=
  claim_C2_exec_error_propagates.2 (ExecResult.output []) GitError.notInstalled rfl

/-- C4: for every captured output whose major and minor versions parse
successfully (to `v` and `sv`), `ValidateGit` yields `ErrGitLowerVersion`
exactly when `v < 2`, or `v = 2` and `sv < 1`, and succeeds otherwise; in
particular the outputs `"git version 1.99.0"` and `"git version 2.00.0"`
both yield `ErrGitLowerVersion`. -/
theorem claim_C4_min_version_comparison (s : Str) (v sv : Int)
    (h : NewRequirementGit.extractGitVersionFromString (goToLower s)
        = .value (.ok (v, sv))) :
    (NewRequirementGit.ValidateGit (.output s) = .value (.error ErrGitLowerVersion)
        ↔ (v < 2 ∨ (v = 2 ∧ sv < 1)))
    ∧ ((¬(v < 2 ∨ (v = 2 ∧ sv < 1))) →
        NewRequirementGit.ValidateGit (.output s) = .value (.ok ()))
    ∧ NewRequirementGit.ValidateGit (.output "git version 1.99.0".data)
        = .value (.error ErrGitLowerVersion)
    ∧ NewRequirementGit.ValidateGit (.output "git version 2.00.0".data)
        = .value (.error ErrGitLowerVersion) := by
  have hget : ∃ t, (goSplit (goToLower (goToLower s))).get? 1 = some t := by
    have h' := h
    rw [extractGitVersionFromString_eq] at h'
    cases hg : (goSplit (goToLower (goToLower s))).get? 1 with
    | none =>
      rw [hg] at h'
      exact Outcome.noConfusion h'
    | some t => exact ⟨t, rfl⟩
  obtain ⟨t, hget⟩ := hget
  have hc : containsMarker (goToLower (goToLower s)) = true := contains_of_get?_some hget
  have hmain : NewRequirementGit.ValidateGit (.output s)
      = (if v < MinVersionGitAccept then
          Outcome.value (α := Except GitError Unit) (.error ErrGitLowerVersion)
        else if v = MinVersionGitAccept ∧ sv < MinSubVersionGitAccept then
          Outcome.value (.error ErrGitLowerVersion)
        else Outcome.value (.ok ())) := by
    rw [ValidateGit_output_eq, if_pos hc]
    unfold RequirementGit.validateIfGitIsRunningInMinVersion
    rw [h]
  refine ⟨?_, ?_, rfl, rfl⟩
  · rw [hmain]
    simp only [MinVersionGitAccept, MinSubVersionGitAccept]
    by_cases h1 : v < 2
    · rw [if_pos h1]
      exact iff_of_true rfl (Or.inl h1)
    · rw [if_neg h1]
      by_cases h2 : v = 2 ∧ sv < 1
      · rw [if_pos h2]
        exact iff_of_true rfl (Or.inr h2)
      · rw [if_neg h2]
        exact iff_of_false (by simp) (fun hh => hh.elim h1 h2)
  · intro hn
    obtain ⟨hn1, hn2⟩ := not_or.mp hn
    rw [hmain]
    simp only [MinVersionGitAccept, MinSubVersionGitAccept]
    rw [if_neg hn1, if_neg hn2]

theorem claim_C4_witness :
    NewRequirementGit.ValidateGit (.output "git version 1.05.0".data)
      = .value (.error ErrGitLowerVersion) :=
  ((claim_C4_min_version_comparison "git version 1.05.0".data 1 5 rfl).1).mpr
    (Or.inl (by decide))

/-- C5 counterexample: the claim says that whenever the characters at offsets
2 to 3 of the marker-following text do not parse as an integer, `ValidateGit`
yields `NotInstalled`.  For the output `"git version 2.0"` the text following
the marker is `"2.0"`: there is no character pair at offsets 2 to 3 at all
(the slice `[2:4]` is out of range), and the code panics rather than
returning `ErrGitNotInstalled`. -/
theorem claim_C5_counterexample :
    containsMarker (goToLower "git version 2.0".data) = true
    ∧ (goSplit (goToLower (goToLower "git version 2.0".data))).get? 1 = some "2.0".data
    ∧ goSlice "2.0".data 2 4 = none
    ∧ NewRequirementGit.ValidateGit (.output "git version 2.0".data)
      ≠ .value (.error ErrGitNotInstalled) :=
  ⟨rfl, rfl, rfl, by decide⟩

/-- C5 amended: for every output containing the marker, with `t` the text
following the marker (the chunk `split[1]`): if `t` is shorter than 3
characters `ValidateGit` yields `ErrGitNotInstalled`; if `t` has at least 3
characters and its first character does not parse as an integer, it yields
`ErrGitNotInstalled`; and if `t` has at least 4 characters and the characters
at offsets 2 to 3 do not parse as an integer, it yields `ErrGitNotInstalled`.
(When `t` has exactly 3 characters and its first character parses, the code
panics instead; see the C1 and C5 counterexamples.) -/
theorem claim_C5_unparseable_chunk_not_installed (s t : Str)
    (ht : (goSplit (goToLower (goToLower s))).get? 1 = some t) :
    (t.length < 3 →
        NewRequirementGit.ValidateGit (.output s) = .value (.error ErrGitNotInstalled))
    ∧ (3 ≤ t.length → atoi (t.take 1) = none →
        NewRequirementGit.ValidateGit (.output s) = .value (.error ErrGitNotInstalled))
    ∧ (4 ≤ t.length → atoi ((t.drop 2).take 2) = none →
        NewRequirementGit.ValidateGit (.output s) = .value (.error ErrGitNotInstalled)) := by
  have hc := contains_of_get?_some ht
  have hVG : NewRequirementGit.ValidateGit (.output s)
      = NewRequirementGit.validateIfGitIsRunningInMinVersion (goToLower s) := by
    rw [ValidateGit_output_eq, if_pos hc]
  refine ⟨?_, ?_, ?_⟩
  · intro h3
    rw [hVG, validateMin_short_chunk _ _ t ht h3]
  · intro h3 hfa
    rw [hVG, validateMin_with_chunk _ _ t ht (by omega),
      getVersion_first_fail _ t (by omega) hfa]
  · intro h4 hsf
    rw [hVG, validateMin_with_chunk _ _ t ht (by omega)]
    cases hfa : atoi (t.take 1) with
    | none => rw [getVersion_first_fail _ t (by omega) hfa]
    | some v => rw [getVersion_eq _ t h4, hfa, hsf]

theorem claim_C5_witness :
    NewRequirementGit.ValidateGit (.output "git version ab".data)
      = .value (.error ErrGitNotInstalled) :=
  (claim_C5_unparseable_chunk_not_installed "git version ab".data "ab".data rfl).1
    (by decide)

/-- C10: the separator character at offset 1 of the text following the marker
is never inspected: if the texts following the marker in two outputs are `t`
and `t` with the character at offset 1 replaced, and `t` has at least 4
characters, `ValidateGit` yields the same result on both outputs. -/
theorem claim_C10_separator_ignored (s s' t : Str) (c : Char)
    (ht : (goSplit (goToLower (goToLower s))).get? 1 = some t)
    (ht' : (goSplit (goToLower (goToLower s'))).get? 1 = some (t.set 1 c))
    (h4 : 4 ≤ t.length) :
    NewRequirementGit.ValidateGit (.output s)
      = NewRequirementGit.ValidateGit (.output s') := by
  have hc := contains_of_get?_some ht
  have hc' := contains_of_get?_some ht'
  rw [ValidateGit_output_eq, if_pos hc, validateMin_with_chunk _ _ t ht (by omega)]
  rw [ValidateGit_output_eq, if_pos hc',
    validateMin_with_chunk _ _ (t.set 1 c) ht' (by rw [List.length_set]; omega)]
  have hkey : NewRequirementGit.getVersionAndSubVersion (t.set 1 c)
      = NewRequirementGit.getVersionAndSubVersion t := by
    rcases t with _ | ⟨a, _ | ⟨b, _ | ⟨d, _ | ⟨e, rest⟩⟩⟩⟩
    · simp at h4
    · simp at h4
    · simp at h4
    · simp at h4
    · rw [getVersion_eq _ _ (by rw [List.length_set]; exact h4), getVersion_eq _ _ h4]
      rfl
  rw [hkey]

theorem claim_C10_witness :
    NewRequirementGit.ValidateGit (.output "git version 2.01.0".data)
      = NewRequirementGit.ValidateGit (.output "git version 2x01.0".data) :=
  claim_C10_separator_ignored "git version 2.01.0".data "git version 2x01.0".data
    "2.01.0".data 'x' rfl rfl (by decide)
